import Mathlib

/-!
# Verification of the electrisense-client relay component

Shallow embedding of the producer/relay double-buffer protocol and the
relay work-unit state machine (`relay_process`) of the repository
`k1132/electrisense-client`.

The repository sources are two C header files:
`src/shared/buffer.h` (the shared buffer data model: `buffer_st`,
`__BUFFER_CAPACITY`) and `src/relay/relay.h` (the relay handle
`relay_st`, the status code `RELAYE_SERV`, and the declarations of
`relay_init`, `relay_process`, `relay_cleanup`).  The function bodies
are not in the repository, so their behaviour is modelled from the
specification; the data model and the constants come from the headers.

Bytes are modelled as `Nat` (values of C `char` cells), byte arrays as
`List Nat`, `size_t` fields as `Nat`.  The fallback directory (the SD
card's dump directory) is modelled as the list of its records in
creation order, each record carrying its creation time.
-/

namespace Electrisense

/-- From `src/shared/buffer.h` line 22: `#define __BUFFER_CAPACITY 102400`. -/
def BUFFER_CAPACITY : Nat := 102400

/-- From `src/relay/relay.h` line 23: `#define RELAYE_SERV -2`
("Server had an issue, not our fault"). -/
def RELAYE_SERV : Int := -2

/-- From `src/shared/buffer.h` lines 31-40: `struct buffer_st` with a
`size` field, a `capacity` field and a `char data[__BUFFER_CAPACITY]`
array.  The C array always has `__BUFFER_CAPACITY` cells; here `data`
is a list whose length is an invariant proved separately. -/
structure buffer_st where
  size : Nat
  capacity : Nat
  data : List Nat
  deriving DecidableEq

/-- A slot is full exactly when its size equals its capacity
(`buffer.h` lines 27-29). -/
def buffer_st.isFull (b : buffer_st) : Prop := b.size = b.capacity

instance (b : buffer_st) : Decidable b.isFull := by
  unfold buffer_st.isFull; infer_instance

/-- A slot is empty exactly when its size is 0. -/
def buffer_st.isEmpty (b : buffer_st) : Prop := b.size = 0

instance (b : buffer_st) : Decidable b.isEmpty := by
  unfold buffer_st.isEmpty; infer_instance

/-- The payload bytes of a slot: the first `size` cells of the data
array.  For a full slot this is the whole array. -/
def buffer_st.payload (b : buffer_st) : List Nat := b.data.take b.size

/-- Modelled from the spec (the body of the producer-side publish
operation is not in src): `mark_full(slot)` sets `size = capacity`,
the sole publish point. -/
def mark_full (b : buffer_st) : buffer_st := { b with size := b.capacity }

/-- Modelled from the spec (the body of the relay-side free operation
is not in src): `mark_empty(slot)` sets `size = 0`, the sole point at
which the slot returns to the producer. -/
def mark_empty (b : buffer_st) : buffer_st := { b with size := 0 }

/-- Modelled from the spec (producer byte writes are not in src): a
producer write stores one byte into the data array; a C array store
never changes the array's length. -/
def write_byte (b : buffer_st) (pos v : Nat) : buffer_st :=
  { b with data := b.data.set pos v }

/-- One record in the fallback directory: an opaque byte blob identical
to the original slot payload, tagged with its creation time.  Modelled
from the spec (the fallback store code is not in src). -/
structure fb_record where
  ctime : Nat
  bytes : List Nat
  deriving DecidableEq

/-- The older of two fallback records, by creation time. -/
def olderOf (a b : fb_record) : fb_record := if b.ctime < a.ctime then b else a

/-- Modelled from the spec: list the fallback directory and pick the
oldest record (minimal creation time; first such record on ties). -/
def oldestRecord : List fb_record → Option fb_record
  | [] => none
  | r :: rs => some (rs.foldl olderOf r)

/-- Modelled from the spec: delete the fallback record created at time
`t` (the first one with that creation time) from the directory. -/
def removeRecord (t : Nat) : List fb_record → List fb_record
  | [] => []
  | r :: rs => if r.ctime = t then rs else r :: removeRecord t rs

/-- From `src/relay/relay.h` lines 25-37: `struct relay_st`.  The two
slots of the shared double buffer (`Buffer *buffers`), the owned
`server_url` and `dump_dir` strings, the round-robin cursor `buf_idx`
and the `verbose` flag are modelled; the CURL handles, libcurl form
lists and the pthread mutex are opaque OS resources with no value-level
behaviour in the spec and are not part of the state.  The contents of
the fallback directory (the durable store behind `dump_dir`) are
carried in the state as `fallback`, oldest record first. -/
structure relay_st where
  buffers0 : buffer_st
  buffers1 : buffer_st
  server_url : String
  dump_dir : String
  buf_idx : Nat
  verbose : Bool
  fallback : List fb_record
  deriving DecidableEq

/-- The slot with index `i`: index 0 is the first slot, any other index
is the second (in C, `buffers[i]` with `i` kept in {0,1}). -/
def relay_st.slot (s : relay_st) (i : Nat) : buffer_st :=
  if i = 0 then s.buffers0 else s.buffers1

/-- Replace the slot with index `i`. -/
def setSlot (s : relay_st) (i : Nat) (b : buffer_st) : relay_st :=
  if i = 0 then { s with buffers0 := b } else { s with buffers1 := b }

/-- The other slot index (round-robin over {0,1}). -/
def otherIdx (i : Nat) : Nat := if i = 0 then 1 else 0

/-- Modelled from the spec (the body is not in src):
`try_claim_for_read`: scan starting at `buf_idx`, return the first
slot with `size == capacity` and advance `buf_idx` to the other slot
(round-robin fairness across calls), or none if neither slot is full. -/
def try_claim_for_read (s : relay_st) : Option Nat × relay_st :=
  if (s.slot s.buf_idx).isFull then
    (some s.buf_idx, { s with buf_idx := otherIdx s.buf_idx })
  else if (s.slot (otherIdx s.buf_idx)).isFull then
    (some (otherIdx s.buf_idx), { s with buf_idx := otherIdx (otherIdx s.buf_idx) })
  else
    (none, s)

/-- Modelled from the spec (the body is not in src):
`try_claim_for_write`: producer-side; return a slot with
`size < capacity`, or none if both slots are full. -/
def try_claim_for_write (s : relay_st) : Option Nat :=
  if (s.slot 0).size < (s.slot 0).capacity then some 0
  else if (s.slot 1).size < (s.slot 1).capacity then some 1
  else none

/-- Result of one call of the upload client adapter
(`upload(bytes) -> {Success, ServerError, TransportError}`). -/
inductive UploadResult where
  | Success
  | ServerError
  | TransportError
  deriving DecidableEq

/-- The source of the single upload a work unit attempts: a memory
slot, or a fallback record identified by its creation time. -/
inductive WorkSource where
  | mem (i : Nat)
  | fb (t : Nat)
  deriving DecidableEq

/-- Observable outcome of one `relay_process` call: the returned status
code, the post state, and the upload attempted during the call (the
source and the exact bytes handed to the upload adapter), if any. -/
structure StepResult where
  status : Int
  state : relay_st
  upload : Option (WorkSource × List Nat)
  deriving DecidableEq

/-- Modelled from the spec (the body of `relay_process`, declared at
`src/relay/relay.h` lines 57-79, is not in src): one unit of work.
`upl` is the upload client adapter, `persistOk` tells whether a write
to the fallback directory succeeds during this call (local I/O fault
when false), `now` is the creation time the filesystem would stamp on
a record created during this call.  Steps: CheckMemory (claim a full
slot; on success deliver it: Success frees the slot; ServerError and
TransportError first persist the bytes as a new fallback record and
only then free the slot, keeping the slot full and returning -1 when
persisting fails); CheckFallback (only when no slot is full: deliver
the oldest record, deleting it only on Success); Idle (return 0). -/
def relay_process (upl : List Nat → UploadResult) (persistOk : Bool)
    (now : Nat) (s : relay_st) : StepResult :=
  match try_claim_for_read s with
  | (some i, s1) =>
    match upl (s1.slot i).payload with
    | .Success =>
      { status := 0
        state := setSlot s1 i (mark_empty (s1.slot i))
        upload := some (.mem i, (s1.slot i).payload) }
    | .ServerError =>
      if persistOk then
        { status := RELAYE_SERV
          state := setSlot { s1 with fallback := s1.fallback ++ [⟨now, (s1.slot i).payload⟩] }
                     i (mark_empty (s1.slot i))
          upload := some (.mem i, (s1.slot i).payload) }
      else
        { status := -1, state := s1, upload := some (.mem i, (s1.slot i).payload) }
    | .TransportError =>
      if persistOk then
        { status := -1
          state := setSlot { s1 with fallback := s1.fallback ++ [⟨now, (s1.slot i).payload⟩] }
                     i (mark_empty (s1.slot i))
          upload := some (.mem i, (s1.slot i).payload) }
      else
        { status := -1, state := s1, upload := some (.mem i, (s1.slot i).payload) }
  | (none, _) =>
    match oldestRecord s.fallback with
    | some r =>
      match upl r.bytes with
      | .Success =>
        { status := 0
          state := { s with fallback := removeRecord r.ctime s.fallback }
          upload := some (.fb r.ctime, r.bytes) }
      | .ServerError =>
        { status := RELAYE_SERV, state := s, upload := some (.fb r.ctime, r.bytes) }
      | .TransportError =>
        { status := -1, state := s, upload := some (.fb r.ctime, r.bytes) }
    | none =>
      { status := 0, state := s, upload := none }

/-- Modelled from the spec (`relay_init` body is not in src): the
initial state.  Both buffers start empty ("To begin, both buffers are
set to be empty", `buffer.h`), with the compile-time capacity
`__BUFFER_CAPACITY` and a data array of exactly that many cells; the
cursor starts at slot 0 and the fallback directory starts empty. -/
def initBuffer : buffer_st :=
  { size := 0, capacity := BUFFER_CAPACITY, data := List.replicate BUFFER_CAPACITY 0 }

/-- Modelled from the spec: the state `relay_init` hands back. -/
def relay_init (url dir : String) (verbose : Bool) : relay_st :=
  { buffers0 := initBuffer
    buffers1 := initBuffer
    server_url := url
    dump_dir := dir
    buf_idx := 0
    verbose := verbose
    fallback := [] }

/-- Run a sequence of `relay_process` calls; each list entry carries
the adapter behaviour, the fallback-write outcome and the clock value
for that call. -/
def runRelay : List ((List Nat → UploadResult) × Bool × Nat) → relay_st → relay_st
  | [], s => s
  | (u, p, n) :: rest, s => runRelay rest (relay_process u p n s).state

/-- The multiset of payloads currently recoverable from the relay's
custody: the payloads of the full memory slots plus the byte blobs of
all fallback records. -/
def recoverable (s : relay_st) : Multiset (List Nat) :=
  (if s.buffers0.isFull then {s.buffers0.payload} else 0)
  + (if s.buffers1.isFull then {s.buffers1.payload} else 0)
  + (s.fallback.map fb_record.bytes : Multiset (List Nat))

/-- One step of either party on the shared state: a producer byte
write, the producer publish `mark_full`, the relay free `mark_empty`,
the relay claim (which moves the cursor), or a whole `relay_process`
work unit. -/
inductive Step : relay_st → relay_st → Prop where
  | write (s : relay_st) (i pos v : Nat) :
      Step s (setSlot s i (write_byte (s.slot i) pos v))
  | markFull (s : relay_st) (i : Nat) :
      Step s (setSlot s i (mark_full (s.slot i)))
  | markEmpty (s : relay_st) (i : Nat) :
      Step s (setSlot s i (mark_empty (s.slot i)))
  | claimRead (s : relay_st) :
      Step s (try_claim_for_read s).2
  | process (s : relay_st) (upl : List Nat → UploadResult) (persistOk : Bool) (now : Nat) :
      Step s (relay_process upl persistOk now s).state

/-- States reachable from an initial state by producer and relay
steps. -/
def Reachable (s : relay_st) : Prop :=
  ∃ url dir verbose, Relation.ReflTransGen Step (relay_init url dir verbose) s

/-! ## Helper lemmas -/

theorem setSlot_fallback (s : relay_st) (i : Nat) (b : buffer_st) :
    (setSlot s i b).fallback = s.fallback := by
  unfold setSlot; split <;> rfl

theorem claim_none (s : relay_st)
    (h0 : ¬ s.buffers0.isFull) (h1 : ¬ s.buffers1.isFull) :
    try_claim_for_read s = (none, s) := by
  unfold try_claim_for_read relay_st.slot otherIdx
  by_cases hb : s.buf_idx = 0 <;> simp [hb, h0, h1]

theorem claim_snd (s : relay_st) :
    ∃ k, (try_claim_for_read s).2 = { s with buf_idx := k } := by
  unfold try_claim_for_read
  split
  · exact ⟨otherIdx s.buf_idx, rfl⟩
  split
  · exact ⟨otherIdx (otherIdx s.buf_idx), rfl⟩
  · exact ⟨s.buf_idx, rfl⟩

theorem claim_fst_isFull (s : relay_st) (i : Nat)
    (h : (try_claim_for_read s).1 = some i) : (s.slot i).isFull := by
  unfold try_claim_for_read at h
  split at h
  · simp only [Option.some.injEq] at h
    subst h; assumption
  · split at h
    · simp only [Option.some.injEq] at h
      subst h; assumption
    · simp at h

theorem mk_buf_idx_slot (s : relay_st) (k i : Nat) :
    ({ s with buf_idx := k } : relay_st).slot i = s.slot i := by
  unfold relay_st.slot; split <;> rfl

theorem notFull_of_empty (b : buffer_st) (h : b.size = 0) (hc : 0 < b.capacity) :
    ¬ b.isFull := by
  unfold buffer_st.isFull; omega

theorem slot_setSlot_self (s : relay_st) (i : Nat) (b : buffer_st) :
    (setSlot s i b).slot i = b := by
  unfold setSlot relay_st.slot
  by_cases h : i = 0 <;> simp [h]

/-! ## Concrete test fixtures for witnesses -/

/-- A one-byte test slot that is full. -/
def fullSlot : buffer_st := ⟨1, 1, [42]⟩

/-- A one-byte test slot that is empty. -/
def emptySlot : buffer_st := ⟨0, 1, [0]⟩

/-- A test state: slot 0 full, slot 1 empty, one pending fallback
record. -/
def testState : relay_st :=
  ⟨fullSlot, emptySlot, "u", "d", 0, false, [⟨0, [9]⟩]⟩

/-- An upload adapter that always reports a server error. -/
def uplServer : List Nat → UploadResult := fun _ => UploadResult.ServerError

/-- An upload adapter that always reports a transport error. -/
def uplTransport : List Nat → UploadResult := fun _ => UploadResult.TransportError

/-- An upload adapter that always succeeds. -/
def uplGood : List Nat → UploadResult := fun _ => UploadResult.Success

/-! ## Claim theorems -/

/-- C6: for every state in which both buffer slots are empty
(`size == 0`, with the positive capacity the data model fixes) and the
fallback directory contains no records, `relay_process` returns 0 (Ok)
and changes nothing: the returned state is the input state, every
field included, and no upload is attempted. -/
theorem relay_process_idle_noop (upl : List Nat → UploadResult)
    (persistOk : Bool) (now : Nat) (s : relay_st)
    (h0 : s.buffers0.size = 0) (h1 : s.buffers1.size = 0)
    (h0c : 0 < s.buffers0.capacity) (h1c : 0 < s.buffers1.capacity)
    (hfb : s.fallback = []) :
    relay_process upl persistOk now s = ⟨0, s, none⟩ := by
  have hn : try_claim_for_read s = (none, s) :=
    claim_none s (notFull_of_empty _ h0 h0c) (notFull_of_empty _ h1 h1c)
  unfold relay_process
  rw [hn, hfb]
  simp [oldestRecord]

/-- C6 witness: the theorem applied at a concrete state. -/
theorem relay_process_idle_noop_witness :
    relay_process (fun _ => UploadResult.ServerError) true 7
        { buffers0 := ⟨0, 1, [0]⟩, buffers1 := ⟨0, 1, [0]⟩,
          server_url := "u", dump_dir := "d", buf_idx := 0,
          verbose := false, fallback := [] }
      = ⟨0, { buffers0 := ⟨0, 1, [0]⟩, buffers1 := ⟨0, 1, [0]⟩,
              server_url := "u", dump_dir := "d", buf_idx := 0,
              verbose := false, fallback := [] }, none⟩ :=
  relay_process_idle_noop _ _ _ _ (by decide) (by decide) (by decide) (by decide) rfl

/-- C7: `try_claim_for_read` scans the two slots starting at the slot
indexed by `buf_idx`: it returns that slot if it is full, otherwise
the other slot if that one is full, otherwise no slot (leaving the
state unchanged); on a successful claim it advances `buf_idx` to the
slot other than the claimed one, so successive calls alternate which
slot is inspected first. -/
theorem try_claim_for_read_spec (s : relay_st) (hb : s.buf_idx ≤ 1) :
    ((s.slot s.buf_idx).isFull →
        try_claim_for_read s
          = (some s.buf_idx, { s with buf_idx := otherIdx s.buf_idx }))
  ∧ (¬ (s.slot s.buf_idx).isFull → (s.slot (otherIdx s.buf_idx)).isFull →
        try_claim_for_read s
          = (some (otherIdx s.buf_idx), { s with buf_idx := s.buf_idx }))
  ∧ (¬ (s.slot s.buf_idx).isFull → ¬ (s.slot (otherIdx s.buf_idx)).isFull →
        try_claim_for_read s = (none, s)) := by
  have hoo : otherIdx (otherIdx s.buf_idx) = s.buf_idx := by
    unfold otherIdx
    by_cases h : s.buf_idx = 0
    · simp [h]
    · simp [h]
      omega
  refine ⟨fun h => ?_, fun h h2 => ?_, fun h h2 => ?_⟩ <;>
    · unfold try_claim_for_read
      simp [h, hoo]
      try simp [h2]

/-- C7 witness: the theorem applied at a concrete state (slot 1 full,
slot 0 empty, cursor at 0). -/
theorem try_claim_for_read_spec_witness :
    try_claim_for_read
        { buffers0 := ⟨0, 1, [0]⟩, buffers1 := ⟨1, 1, [5]⟩,
          server_url := "u", dump_dir := "d", buf_idx := 0,
          verbose := false, fallback := [] }
      = (some 1, { buffers0 := ⟨0, 1, [0]⟩, buffers1 := ⟨1, 1, [5]⟩,
                   server_url := "u", dump_dir := "d", buf_idx := 0,
                   verbose := false, fallback := [] }) :=
  (try_claim_for_read_spec _ (by decide)).2.1 (by decide) (by decide)

/-- C8: on every input, `relay_process` returns exactly one of 0
(success), -1 (generic local failure) or `RELAYE_SERV`, and
`RELAYE_SERV` is -2: negative and distinct from -1, so the caller can
tell server trouble from local failure by the return value alone. -/
theorem relay_process_status_codes (upl : List Nat → UploadResult)
    (persistOk : Bool) (now : Nat) (s : relay_st) :
    ((relay_process upl persistOk now s).status = 0 ∨
     (relay_process upl persistOk now s).status = -1 ∨
     (relay_process upl persistOk now s).status = RELAYE_SERV)
    ∧ RELAYE_SERV = -2 ∧ RELAYE_SERV < 0 ∧ RELAYE_SERV ≠ -1 := by
  refine ⟨?_, rfl, by decide, by decide⟩
  unfold relay_process
  rcases h : try_claim_for_read s with ⟨oi, s1⟩
  cases oi with
  | some i =>
    cases h2 : upl (s1.slot i).payload <;> cases persistOk <;> simp [h2]
  | none =>
    cases h3 : oldestRecord s.fallback with
    | some r => cases h4 : upl r.bytes <;> simp [h4]
    | none => simp

/-- C2: `relay_process` picks its unit of work in a fixed order:
whenever the slot scan claims a full memory slot it is that slot's
bytes that are handed to the upload adapter (no fallback file is
uploaded, and every pre-existing fallback record is still in the
directory, in place, with at most a new record appended after it);
only when no slot is full is the fallback directory consulted; and
when neither a full slot nor a fallback record exists, the call is a
no-op returning the success status. -/
theorem relay_process_memory_first (upl : List Nat → UploadResult)
    (persistOk : Bool) (now : Nat) (s : relay_st) :
    (∀ i, (try_claim_for_read s).1 = some i →
        (relay_process upl persistOk now s).upload
          = some (WorkSource.mem i, (s.slot i).payload)
      ∧ ∃ t, (relay_process upl persistOk now s).state.fallback = s.fallback ++ t)
  ∧ (¬ s.buffers0.isFull → ¬ s.buffers1.isFull → s.fallback = [] →
      relay_process upl persistOk now s = ⟨0, s, none⟩) := by
  constructor
  · intro i hi
    obtain ⟨k, hk⟩ := claim_snd s
    unfold relay_process
    rcases hcl : try_claim_for_read s with ⟨oi, s1⟩
    rw [hcl] at hi hk
    simp only at hi hk
    subst hi
    subst hk
    simp only [mk_buf_idx_slot]
    cases h2 : upl (s.slot i).payload with
    | Success =>
      exact ⟨by simp [h2], [], by simp [h2, setSlot_fallback]⟩
    | ServerError =>
      cases persistOk with
      | true =>
        exact ⟨by simp [h2], [⟨now, (s.slot i).payload⟩],
          by simp [h2, setSlot_fallback]⟩
      | false =>
        exact ⟨by simp [h2], [], by simp [h2]⟩
    | TransportError =>
      cases persistOk with
      | true =>
        exact ⟨by simp [h2], [⟨now, (s.slot i).payload⟩],
          by simp [h2, setSlot_fallback]⟩
      | false =>
        exact ⟨by simp [h2], [], by simp [h2]⟩
  · intro h0 h1 hfb
    have hn := claim_none s h0 h1
    unfold relay_process
    rw [hn, hfb]
    simp [oldestRecord]

/-- C2 witness: with slot 0 full and a fallback record pending, the
call uploads the memory slot's bytes and the pre-existing fallback
record survives. -/
theorem relay_process_memory_first_witness :
    (relay_process uplServer true 5 testState).upload
      = some (WorkSource.mem 0, (testState.slot 0).payload)
  ∧ ∃ t, (relay_process uplServer true 5 testState).state.fallback
      = testState.fallback ++ t :=
  (relay_process_memory_first uplServer true 5 testState).1 0 rfl

/-- C3: when `relay_process` delivers a full memory slot and the
upload reports `ServerError`, the call appends the slot's bytes as a
new fallback record, empties the slot (size 0, data untouched),
returns `RELAYE_SERV` (-2, distinct from the generic -1), and every
fallback record present before the call is still present after it. -/
theorem relay_process_server_fault (upl : List Nat → UploadResult)
    (now : Nat) (s : relay_st) (i : Nat)
    (hi : (try_claim_for_read s).1 = some i)
    (hupl : upl (s.slot i).payload = UploadResult.ServerError) :
    (relay_process upl true now s).status = RELAYE_SERV
  ∧ RELAYE_SERV = -2 ∧ RELAYE_SERV ≠ -1
  ∧ (relay_process upl true now s).state.fallback
      = s.fallback ++ [⟨now, (s.slot i).payload⟩]
  ∧ ((relay_process upl true now s).state.slot i).size = 0
  ∧ ((relay_process upl true now s).state.slot i).data = (s.slot i).data
  ∧ ∀ rec ∈ s.fallback, rec ∈ (relay_process upl true now s).state.fallback := by
  obtain ⟨k, hk⟩ := claim_snd s
  unfold relay_process
  rcases hcl : try_claim_for_read s with ⟨oi, s1⟩
  rw [hcl] at hi hk
  simp only at hi hk
  subst hi
  subst hk
  simp only [mk_buf_idx_slot, hupl]
  refine ⟨by simp, rfl, by decide, ?_, ?_, ?_, ?_⟩
  · simp [setSlot_fallback]
  · simp [slot_setSlot_self, mark_empty]
  · simp [slot_setSlot_self, mark_empty]
  · intro rec hrec
    simp [setSlot_fallback, hrec]

/-- C3 witness: the theorem applied at a concrete state with slot 0
full, one pre-existing fallback record, and a server-error adapter. -/
theorem relay_process_server_fault_witness :
    (relay_process uplServer true 5 testState).status = RELAYE_SERV
  ∧ RELAYE_SERV = -2 ∧ RELAYE_SERV ≠ -1
  ∧ (relay_process uplServer true 5 testState).state.fallback
      = testState.fallback ++ [⟨5, (testState.slot 0).payload⟩]
  ∧ ((relay_process uplServer true 5 testState).state.slot 0).size = 0
  ∧ ((relay_process uplServer true 5 testState).state.slot 0).data
      = (testState.slot 0).data
  ∧ ∀ rec ∈ testState.fallback,
      rec ∈ (relay_process uplServer true 5 testState).state.fallback :=
  relay_process_server_fault uplServer 5 testState 0 rfl rfl

/-- C4: if `relay_process` claims a full memory slot, the upload does
not succeed, and persisting the slot's bytes to the fallback directory
also fails (local I/O fault), the call leaves the slot untouched and
still full, leaves the fallback directory unchanged, and returns the
generic error status -1: the slot is never emptied while its bytes are
neither at the server nor in a fallback record. -/
theorem relay_process_local_fault (upl : List Nat → UploadResult)
    (now : Nat) (s : relay_st) (i : Nat)
    (hi : (try_claim_for_read s).1 = some i)
    (hupl : upl (s.slot i).payload ≠ UploadResult.Success) :
    (relay_process upl false now s).status = -1
  ∧ (relay_process upl false now s).state.slot i = s.slot i
  ∧ ((relay_process upl false now s).state.slot i).isFull
  ∧ (relay_process upl false now s).state.fallback = s.fallback := by
  have hfull := claim_fst_isFull s i hi
  obtain ⟨k, hk⟩ := claim_snd s
  unfold relay_process
  rcases hcl : try_claim_for_read s with ⟨oi, s1⟩
  rw [hcl] at hi hk
  simp only at hi hk
  subst hi
  subst hk
  simp only [mk_buf_idx_slot]
  cases h2 : upl (s.slot i).payload with
  | Success => exact absurd h2 hupl
  | ServerError =>
    exact ⟨by simp [h2], by simp [h2, mk_buf_idx_slot],
      by simp [h2, mk_buf_idx_slot, hfull], by simp [h2]⟩
  | TransportError =>
    exact ⟨by simp [h2], by simp [h2, mk_buf_idx_slot],
      by simp [h2, mk_buf_idx_slot, hfull], by simp [h2]⟩

theorem process_buffers (upl : List Nat → UploadResult) (persistOk : Bool)
    (now : Nat) (s : relay_st) :
    ((relay_process upl persistOk now s).state.buffers0 = s.buffers0
      ∨ (relay_process upl persistOk now s).state.buffers0 = mark_empty s.buffers0)
  ∧ ((relay_process upl persistOk now s).state.buffers1 = s.buffers1
      ∨ (relay_process upl persistOk now s).state.buffers1 = mark_empty s.buffers1) := by
  obtain ⟨k, hk⟩ := claim_snd s
  unfold relay_process
  rcases hcl : try_claim_for_read s with ⟨oi, s1⟩
  cases oi with
  | none =>
    cases h3 : oldestRecord s.fallback with
    | none => simp
    | some r => cases h4 : upl r.bytes <;> simp [h4]
  | some i =>
    rw [hcl] at hk
    simp only at hk
    subst hk
    simp only [mk_buf_idx_slot]
    by_cases hi : i = 0 <;>
      cases h2 : upl (s.slot i).payload <;>
        cases persistOk <;>
          simp [h2, hi, setSlot, relay_st.slot]

theorem recoverable_step (upl : List Nat → UploadResult) (persistOk : Bool)
    (now : Nat) (s : relay_st)
    (h0c : 0 < s.buffers0.capacity) (h1c : 0 < s.buffers1.capacity)
    (hfail : ∀ b, upl b ≠ UploadResult.Success) :
    recoverable ((relay_process upl persistOk now s).state) = recoverable s := by
  have hne0 : (0 : Nat) ≠ s.buffers0.capacity := Nat.ne_of_lt h0c
  have hne1 : (0 : Nat) ≠ s.buffers1.capacity := Nat.ne_of_lt h1c
  obtain ⟨k, hk⟩ := claim_snd s
  unfold relay_process
  rcases hcl : try_claim_for_read s with ⟨oi, s1⟩
  cases oi with
  | none =>
    cases h3 : oldestRecord s.fallback with
    | none => simp
    | some r =>
      cases h4 : upl r.bytes with
      | Success => exact absurd h4 (hfail _)
      | ServerError => simp [h4]
      | TransportError => simp [h4]
  | some i =>
    have hfull : (s.slot i).isFull := claim_fst_isFull s i (by rw [hcl])
    rw [hcl] at hk
    simp only at hk
    subst hk
    simp only [mk_buf_idx_slot]
    cases h2 : upl (s.slot i).payload with
    | Success => exact absurd h2 (hfail _)
    | ServerError =>
      cases persistOk with
      | false => simp [h2, recoverable]
      | true =>
        by_cases hi : i = 0
        · subst hi
          have hfull0 : s.buffers0.size = s.buffers0.capacity := by
            simpa [relay_st.slot, buffer_st.isFull] using hfull
          simp [h2, recoverable, setSlot, relay_st.slot, mark_empty,
            buffer_st.isFull, hne0, hfull0, ← Multiset.coe_add,
            Multiset.coe_singleton]
          try rw [← Multiset.singleton_add]
          abel
        · have hfull1 : s.buffers1.size = s.buffers1.capacity := by
            simpa [relay_st.slot, hi, buffer_st.isFull] using hfull
          simp [h2, hi, recoverable, setSlot, relay_st.slot, mark_empty,
            buffer_st.isFull, hne1, hfull1, ← Multiset.coe_add,
            Multiset.coe_singleton]
          try rw [← Multiset.singleton_add]
          abel
    | TransportError =>
      cases persistOk with
      | false => simp [h2, recoverable]
      | true =>
        by_cases hi : i = 0
        · subst hi
          have hfull0 : s.buffers0.size = s.buffers0.capacity := by
            simpa [relay_st.slot, buffer_st.isFull] using hfull
          simp [h2, recoverable, setSlot, relay_st.slot, mark_empty,
            buffer_st.isFull, hne0, hfull0, ← Multiset.coe_add,
            Multiset.coe_singleton]
          try rw [← Multiset.singleton_add]
          abel
        · have hfull1 : s.buffers1.size = s.buffers1.capacity := by
            simpa [relay_st.slot, hi, buffer_st.isFull] using hfull
          simp [h2, hi, recoverable, setSlot, relay_st.slot, mark_empty,
            buffer_st.isFull, hne1, hfull1, ← Multiset.coe_add,
            Multiset.coe_singleton]
          try rw [← Multiset.singleton_add]
          abel

theorem process_capacity_pos (upl : List Nat → UploadResult) (persistOk : Bool)
    (now : Nat) (s : relay_st)
    (h0c : 0 < s.buffers0.capacity) (h1c : 0 < s.buffers1.capacity) :
    0 < (relay_process upl persistOk now s).state.buffers0.capacity
    ∧ 0 < (relay_process upl persistOk now s).state.buffers1.capacity := by
  obtain ⟨h0, h1⟩ := process_buffers upl persistOk now s
  constructor
  · rcases h0 with h | h <;> rw [h] <;> simpa [mark_empty] using h0c
  · rcases h1 with h | h <;> rw [h] <;> simpa [mark_empty] using h1c

/-- C1: over any sequence of `relay_process` calls in which every
upload attempt fails (`ServerError` or `TransportError`, never
`Success`), the multiset of payloads in the relay's custody — the
payloads of the full memory slots together with the byte blobs of all
fallback records — is exactly preserved.  Since this holds for every
such sequence it holds after each call of one: bytes of a slot that
was marked full are, after every call, recoverable either from a
fallback record (when persisting succeeded and the slot was freed) or
from the still-full slot (when persisting failed); they are never
discarded. -/
theorem no_data_loss_on_failed_uploads
    (inputs : List ((List Nat → UploadResult) × Bool × Nat)) (s : relay_st)
    (h0c : 0 < s.buffers0.capacity) (h1c : 0 < s.buffers1.capacity)
    (hfail : ∀ x ∈ inputs, ∀ b, x.1 b ≠ UploadResult.Success) :
    recoverable (runRelay inputs s) = recoverable s := by
  induction inputs generalizing s with
  | nil => rfl
  | cons x rest ih =>
    rcases x with ⟨u, p, n⟩
    have hstep : recoverable ((relay_process u p n s).state) = recoverable s :=
      recoverable_step u p n s h0c h1c (hfail _ (List.mem_cons_self _ _))
    obtain ⟨hc0, hc1⟩ := process_capacity_pos u p n s h0c h1c
    have hrest := ih ((relay_process u p n s).state) hc0 hc1
      (fun y hy => hfail y (List.mem_cons_of_mem _ hy))
    calc recoverable (runRelay ((u, p, n) :: rest) s)
        = recoverable (runRelay rest (relay_process u p n s).state) := rfl
      _ = recoverable ((relay_process u p n s).state) := hrest
      _ = recoverable s := hstep

/-- C1 witness: the theorem applied to a two-call failing sequence
(server error with a working fallback disk, then transport error with
a failing disk) starting from a state with slot 0 full. -/
theorem no_data_loss_on_failed_uploads_witness :
    recoverable (runRelay [(uplServer, true, 3), (uplTransport, false, 4)] testState)
      = recoverable testState :=
  no_data_loss_on_failed_uploads [(uplServer, true, 3), (uplTransport, false, 4)]
    testState (by decide) (by decide)
    (by
      intro x hx b
      rcases List.mem_cons.mp hx with h | h
      · subst h; simp [uplServer]
      · rcases List.mem_cons.mp h with h2 | h2
        · subst h2; simp [uplTransport]
        · simp at h2)

theorem foldl_olderOf_head (r : fb_record) (rs : List fb_record)
    (h : ∀ x ∈ rs, ¬ x.ctime < r.ctime) : rs.foldl olderOf r = r := by
  induction rs with
  | nil => rfl
  | cons a as ih =>
    rw [List.foldl_cons, show olderOf r a = r from if_neg (h a (by simp))]
    exact ih fun x hx => h x (by simp [hx])

theorem oldestRecord_head (r : fb_record) (rs : List fb_record)
    (h : ∀ x ∈ rs, ¬ x.ctime < r.ctime) :
    oldestRecord (r :: rs) = some r := by
  show some (rs.foldl olderOf r) = some r
  rw [foldl_olderOf_head r rs h]

theorem removeRecord_head (r : fb_record) (rs : List fb_record) :
    removeRecord r.ctime (r :: rs) = rs := by
  simp [removeRecord]

theorem relay_fb_success (upl : List Nat → UploadResult) (persistOk : Bool)
    (now : Nat) (s : relay_st) (r : fb_record)
    (h0 : ¬ s.buffers0.isFull) (h1 : ¬ s.buffers1.isFull)
    (hold : oldestRecord s.fallback = some r)
    (hup : upl r.bytes = UploadResult.Success) :
    relay_process upl persistOk now s
      = ⟨0, { s with fallback := removeRecord r.ctime s.fallback },
          some (.fb r.ctime, r.bytes)⟩ := by
  have hn := claim_none s h0 h1
  unfold relay_process
  rw [hn, hold]
  simp [hup]

theorem relay_fb_fail (upl : List Nat → UploadResult) (persistOk : Bool)
    (now : Nat) (s : relay_st) (r : fb_record)
    (h0 : ¬ s.buffers0.isFull) (h1 : ¬ s.buffers1.isFull)
    (hold : oldestRecord s.fallback = some r)
    (hup : upl r.bytes ≠ UploadResult.Success) :
    (relay_process upl persistOk now s).state = s
    ∧ (relay_process upl persistOk now s).upload = some (.fb r.ctime, r.bytes) := by
  have hn := claim_none s h0 h1
  unfold relay_process
  rw [hn, hold]
  cases h4 : upl r.bytes with
  | Success => exact absurd h4 hup
  | ServerError => simp [h4]
  | TransportError => simp [h4]

/-- C5: fallback records are delivered strictly oldest-first by
creation time and never reordered, and a record is deleted only after
an upload of its bytes succeeds.  With no full memory slot and three
records created at times t1 < t2 < t3, three successive calls with a
succeeding adapter upload and delete exactly r1 then r2 then r3, and a
call with a failing adapter attempts the oldest record and leaves the
whole state, the directory included, exactly as it was (the record
stays in place, not duplicated). -/
theorem fallback_oldest_first (uplA uplF : List Nat → UploadResult)
    (p1 p2 p3 pf : Bool) (n1 n2 n3 nf : Nat) (s : relay_st)
    (r1 r2 r3 : fb_record)
    (h0 : ¬ s.buffers0.isFull) (h1 : ¬ s.buffers1.isFull)
    (h12 : r1.ctime < r2.ctime) (h23 : r2.ctime < r3.ctime)
    (hfb : s.fallback = [r1, r2, r3])
    (hok : ∀ b, uplA b = UploadResult.Success)
    (hfailF : ∀ b, uplF b ≠ UploadResult.Success) :
    (relay_process uplA p1 n1 s).upload = some (.fb r1.ctime, r1.bytes)
  ∧ (relay_process uplA p1 n1 s).state.fallback = [r2, r3]
  ∧ (relay_process uplA p2 n2 (relay_process uplA p1 n1 s).state).upload
      = some (.fb r2.ctime, r2.bytes)
  ∧ (relay_process uplA p2 n2 (relay_process uplA p1 n1 s).state).state.fallback
      = [r3]
  ∧ (relay_process uplA p3 n3
        (relay_process uplA p2 n2 (relay_process uplA p1 n1 s).state).state).upload
      = some (.fb r3.ctime, r3.bytes)
  ∧ (relay_process uplA p3 n3
        (relay_process uplA p2 n2 (relay_process uplA p1 n1 s).state).state).state.fallback
      = []
  ∧ (relay_process uplF pf nf s).upload = some (.fb r1.ctime, r1.bytes)
  ∧ (relay_process uplF pf nf s).state = s := by
  have hold1 : oldestRecord s.fallback = some r1 := by
    rw [hfb]
    refine oldestRecord_head _ _ ?_
    intro x hx
    simp at hx
    rcases hx with rfl | rfl <;> omega
  have e1 := relay_fb_success uplA p1 n1 s r1 h0 h1 hold1 (hok _)
  have heq1 : (relay_process uplA p1 n1 s).state
      = { s with fallback := [r2, r3] } := by
    rw [e1]
    simp [hfb, removeRecord_head]
  have hold2 : oldestRecord ({ s with fallback := [r2, r3] } : relay_st).fallback
      = some r2 := by
    refine oldestRecord_head _ _ ?_
    intro x hx
    simp at hx
    subst hx
    omega
  have e2 := relay_fb_success uplA p2 n2 { s with fallback := [r2, r3] } r2
    h0 h1 hold2 (hok _)
  have heq2 : (relay_process uplA p2 n2
        ({ s with fallback := [r2, r3] } : relay_st)).state
      = { s with fallback := [r3] } := by
    rw [e2]
    simp [removeRecord_head]
  have hold3 : oldestRecord ({ s with fallback := [r3] } : relay_st).fallback
      = some r3 :=
    oldestRecord_head _ _ (by intro x hx; simp at hx)
  have e3 := relay_fb_success uplA p3 n3 { s with fallback := [r3] } r3
    h0 h1 hold3 (hok _)
  have ef := relay_fb_fail uplF pf nf s r1 h0 h1 hold1 (hfailF _)
  refine ⟨by rw [e1], by rw [heq1], ?_, ?_, ?_, ?_, ef.2, ef.1⟩
  · rw [heq1, e2]
  · rw [heq1, heq2]
  · rw [heq1, heq2, e3]
  · rw [heq1, heq2, e3]
    simp [removeRecord_head]

/-- A test state with both slots empty and three fallback records
created at times 1 < 2 < 3. -/
def fbState : relay_st :=
  ⟨emptySlot, emptySlot, "u", "d", 0, false, [⟨1, [11]⟩, ⟨2, [22]⟩, ⟨3, [33]⟩]⟩

/-- C5 witness: the theorem applied at a concrete backlog of three
records; a succeeding adapter drains them oldest-first, a failing one
changes nothing. -/
theorem fallback_oldest_first_witness :
    (relay_process uplGood true 9 fbState).upload = some (.fb 1, [11])
  ∧ (relay_process uplGood true 9 fbState).state.fallback = [⟨2, [22]⟩, ⟨3, [33]⟩]
  ∧ (relay_process uplGood true 9 (relay_process uplGood true 9 fbState).state).upload
      = some (.fb 2, [22])
  ∧ (relay_process uplGood true 9 (relay_process uplGood true 9 fbState).state).state.fallback
      = [⟨3, [33]⟩]
  ∧ (relay_process uplGood true 9
        (relay_process uplGood true 9 (relay_process uplGood true 9 fbState).state).state).upload
      = some (.fb 3, [33])
  ∧ (relay_process uplGood true 9
        (relay_process uplGood true 9 (relay_process uplGood true 9 fbState).state).state).state.fallback
      = []
  ∧ (relay_process uplServer false 9 fbState).upload = some (.fb 1, [11])
  ∧ (relay_process uplServer false 9 fbState).state = fbState :=
  fallback_oldest_first uplGood uplServer true true true false 9 9 9 9 fbState
    ⟨1, [11]⟩ ⟨2, [22]⟩ ⟨3, [33]⟩ (by decide) (by decide) (by decide) (by decide)
    rfl (fun _ => rfl) (by intro b; simp [uplServer])

/-- The size/capacity invariant of the two slots: `0 ≤ size` is
inherent to the unsigned `size_t` model, so it reads
`size ≤ capacity` for each slot. -/
def SlotInv (s : relay_st) : Prop :=
  s.buffers0.size ≤ s.buffers0.capacity ∧ s.buffers1.size ≤ s.buffers1.capacity

instance (s : relay_st) : Decidable (SlotInv s) := by
  unfold SlotInv; infer_instance

theorem step_slots (s s' : relay_st) (hstep : Step s s') :
    (s'.buffers0.capacity = s.buffers0.capacity
      ∧ (s'.buffers0.size = s.buffers0.size ∨ s'.buffers0.size = 0
          ∨ s'.buffers0.size = s.buffers0.capacity))
  ∧ (s'.buffers1.capacity = s.buffers1.capacity
      ∧ (s'.buffers1.size = s.buffers1.size ∨ s'.buffers1.size = 0
          ∨ s'.buffers1.size = s.buffers1.capacity)) := by
  cases hstep with
  | write i pos v =>
    by_cases hi : i = 0 <;> simp [hi, setSlot, write_byte, relay_st.slot]
  | markFull i =>
    by_cases hi : i = 0 <;> simp [hi, setSlot, mark_full, relay_st.slot]
  | markEmpty i =>
    by_cases hi : i = 0 <;> simp [hi, setSlot, mark_empty, relay_st.slot]
  | claimRead =>
    obtain ⟨k, hk⟩ := claim_snd s
    rw [hk]
    simp
  | process upl persistOk now =>
    obtain ⟨c0, c1⟩ := process_buffers upl persistOk now s
    constructor
    · rcases c0 with h | h <;> rw [h] <;> simp [mark_empty]
    · rcases c1 with h | h <;> rw [h] <;> simp [mark_empty]

/-- C9: each slot satisfies `size ≤ capacity` (with `0 ≤ size` built
into the unsigned model), a slot is observed empty exactly when
`size = 0` and full exactly when `size = capacity`, and every
operation of the producer and relay — byte writes, `mark_full`,
`mark_empty`, the read claim, and a whole `relay_process` call —
preserves the invariant and never modifies either capacity field. -/
theorem slot_size_invariant (s s' : relay_st) (hstep : Step s s')
    (hinv : SlotInv s) :
    SlotInv s'
  ∧ s'.buffers0.capacity = s.buffers0.capacity
  ∧ s'.buffers1.capacity = s.buffers1.capacity
  ∧ (∀ b : buffer_st, (b.isEmpty ↔ b.size = 0) ∧ (b.isFull ↔ b.size = b.capacity)) := by
  obtain ⟨⟨e0, d0⟩, ⟨e1, d1⟩⟩ := step_slots s s' hstep
  obtain ⟨i0, i1⟩ := hinv
  refine ⟨⟨?_, ?_⟩, e0, e1, fun b => ⟨Iff.rfl, Iff.rfl⟩⟩
  · rw [e0]; rcases d0 with h | h | h <;> omega
  · rw [e1]; rcases d1 with h | h | h <;> omega

/-- C9 witness: the theorem applied to a concrete `mark_full` step on
slot 1 of the test state. -/
theorem slot_size_invariant_witness :
    SlotInv (setSlot testState 1 (mark_full (testState.slot 1)))
  ∧ (setSlot testState 1 (mark_full (testState.slot 1))).buffers0.capacity
      = testState.buffers0.capacity
  ∧ (setSlot testState 1 (mark_full (testState.slot 1))).buffers1.capacity
      = testState.buffers1.capacity
  ∧ (∀ b : buffer_st, (b.isEmpty ↔ b.size = 0) ∧ (b.isFull ↔ b.size = b.capacity)) :=
  slot_size_invariant testState _ (Step.markFull testState 1) (by decide)

theorem mem_removeRecord (t : Nat) (l : List fb_record) (r : fb_record)
    (h : r ∈ removeRecord t l) : r ∈ l := by
  induction l with
  | nil => simp [removeRecord] at h
  | cons a as ih =>
    rw [removeRecord] at h
    split at h
    · exact List.mem_cons_of_mem a h
    · rcases List.mem_cons.mp h with rfl | h
      · exact List.mem_cons_self _ _
      · exact List.mem_cons_of_mem a (ih h)

theorem process_fallback_mem (upl : List Nat → UploadResult) (persistOk : Bool)
    (now : Nat) (s : relay_st) :
    ∀ rec ∈ (relay_process upl persistOk now s).state.fallback,
      rec ∈ s.fallback ∨ rec.bytes = s.buffers0.payload
        ∨ rec.bytes = s.buffers1.payload := by
  intro rec hrec
  obtain ⟨k, hk⟩ := claim_snd s
  unfold relay_process at hrec
  rcases hcl : try_claim_for_read s with ⟨oi, s1⟩
  rw [hcl] at hrec hk
  simp only at hk
  subst hk
  cases oi with
  | none =>
    cases h3 : oldestRecord s.fallback with
    | none =>
      simp only [h3] at hrec
      exact Or.inl hrec
    | some r =>
      cases h4 : upl r.bytes with
      | Success =>
        simp only [h3, h4] at hrec
        exact Or.inl (mem_removeRecord _ _ _ hrec)
      | ServerError =>
        simp only [h3, h4] at hrec
        exact Or.inl hrec
      | TransportError =>
        simp only [h3, h4] at hrec
        exact Or.inl hrec
  | some i =>
    simp only [mk_buf_idx_slot] at hrec
    cases h2 : upl (s.slot i).payload with
    | Success =>
      simp [h2, setSlot_fallback] at hrec
      exact Or.inl hrec
    | ServerError =>
      cases persistOk with
      | true =>
        simp [h2, setSlot_fallback] at hrec
        rcases hrec with h | h
        · exact Or.inl h
        · by_cases hi : i = 0
          · subst hi
            right; left
            rw [h]
            simp [relay_st.slot]
          · right; right
            rw [h]
            simp [relay_st.slot, hi]
      | false =>
        simp [h2] at hrec
        exact Or.inl hrec
    | TransportError =>
      cases persistOk with
      | true =>
        simp [h2, setSlot_fallback] at hrec
        rcases hrec with h | h
        · exact Or.inl h
        · by_cases hi : i = 0
          · subst hi
            right; left
            rw [h]
            simp [relay_st.slot]
          · right; right
            rw [h]
            simp [relay_st.slot, hi]
      | false =>
        simp [h2] at hrec
        exact Or.inl hrec

/-- Well-formedness of a state against the compile-time layout of
`buffer.h`: both capacity fields hold `__BUFFER_CAPACITY`, both data
arrays have exactly that many cells, sizes are in range, and every
fallback record holds at most that many bytes. -/
def WF (s : relay_st) : Prop :=
  s.buffers0.capacity = BUFFER_CAPACITY ∧ s.buffers1.capacity = BUFFER_CAPACITY
  ∧ s.buffers0.data.length = BUFFER_CAPACITY ∧ s.buffers1.data.length = BUFFER_CAPACITY
  ∧ s.buffers0.size ≤ BUFFER_CAPACITY ∧ s.buffers1.size ≤ BUFFER_CAPACITY
  ∧ ∀ r ∈ s.fallback, r.bytes.length ≤ BUFFER_CAPACITY

theorem payload_length_le (b : buffer_st) (h : b.data.length = BUFFER_CAPACITY) :
    b.payload.length ≤ BUFFER_CAPACITY := by
  simp [buffer_st.payload, List.length_take]
  omega

theorem step_WF (s s' : relay_st) (hstep : Step s s') (h : WF s) : WF s' := by
  obtain ⟨c0, c1, d0, d1, z0, z1, fb⟩ := h
  cases hstep with
  | write i pos v =>
    by_cases hi : i = 0 <;>
      exact ⟨by simp [hi, setSlot, write_byte, relay_st.slot, c0],
        by simp [hi, setSlot, write_byte, relay_st.slot, c1],
        by simp [hi, setSlot, write_byte, relay_st.slot, d0],
        by simp [hi, setSlot, write_byte, relay_st.slot, d1],
        by simp [hi, setSlot, write_byte, relay_st.slot, z0],
        by simp [hi, setSlot, write_byte, relay_st.slot, z1],
        by simpa [hi, setSlot] using fb⟩
  | markFull i =>
    by_cases hi : i = 0 <;>
      exact ⟨by simp [hi, setSlot, mark_full, relay_st.slot, c0],
        by simp [hi, setSlot, mark_full, relay_st.slot, c1],
        by simp [hi, setSlot, mark_full, relay_st.slot, d0],
        by simp [hi, setSlot, mark_full, relay_st.slot, d1],
        by simp [hi, setSlot, mark_full, relay_st.slot, c0, c1, z0, z1],
        by simp [hi, setSlot, mark_full, relay_st.slot, c0, c1, z0, z1],
        by simpa [hi, setSlot] using fb⟩
  | markEmpty i =>
    by_cases hi : i = 0 <;>
      exact ⟨by simp [hi, setSlot, mark_empty, relay_st.slot, c0],
        by simp [hi, setSlot, mark_empty, relay_st.slot, c1],
        by simp [hi, setSlot, mark_empty, relay_st.slot, d0],
        by simp [hi, setSlot, mark_empty, relay_st.slot, d1],
        by simp [hi, setSlot, mark_empty, relay_st.slot, z0],
        by simp [hi, setSlot, mark_empty, relay_st.slot, z1],
        by simpa [hi, setSlot] using fb⟩
  | claimRead =>
    obtain ⟨k, hk⟩ := claim_snd s
    rw [hk]
    exact ⟨c0, c1, d0, d1, z0, z1, fb⟩
  | process upl persistOk now =>
    obtain ⟨b0, b1⟩ := process_buffers upl persistOk now s
    have hfb := process_fallback_mem upl persistOk now s
    refine ⟨?_, ?_, ?_, ?_, ?_, ?_, ?_⟩
    · rcases b0 with hh | hh <;> rw [hh] <;> simp [mark_empty, c0]
    · rcases b1 with hh | hh <;> rw [hh] <;> simp [mark_empty, c1]
    · rcases b0 with hh | hh <;> rw [hh] <;> simp [mark_empty, d0]
    · rcases b1 with hh | hh <;> rw [hh] <;> simp [mark_empty, d1]
    · rcases b0 with hh | hh <;> rw [hh] <;> simp [mark_empty, z0]
    · rcases b1 with hh | hh <;> rw [hh] <;> simp [mark_empty, z1]
    · intro r hr
      rcases hfb r hr with hh | hh | hh
      · exact fb r hh
      · rw [hh]; exact payload_length_le _ d0
      · rw [hh]; exact payload_length_le _ d1

theorem reachable_WF (s : relay_st) (h : Reachable s) : WF s := by
  obtain ⟨url, dir, v, hr⟩ := h
  induction hr with
  | refl =>
    refine ⟨rfl, rfl, ?_, ?_, ?_, ?_, ?_⟩ <;>
      simp [relay_init, initBuffer]
  | tail hsteps hstep ih => exact step_WF _ _ hstep ih

/-- C10: in every reachable state, both slots' capacity fields equal
`__BUFFER_CAPACITY`, which is 102400; both data arrays hold exactly
102400 cells; and consequently no slot payload and no fallback record
ever exceeds 102400 bytes. -/
theorem buffer_capacity_102400 (s : relay_st) (h : Reachable s) :
    s.buffers0.capacity = 102400 ∧ s.buffers1.capacity = 102400
  ∧ BUFFER_CAPACITY = 102400
  ∧ s.buffers0.data.length = 102400 ∧ s.buffers1.data.length = 102400
  ∧ s.buffers0.payload.length ≤ 102400 ∧ s.buffers1.payload.length ≤ 102400
  ∧ ∀ r ∈ s.fallback, r.bytes.length ≤ 102400 := by
  obtain ⟨c0, c1, d0, d1, z0, z1, fb⟩ := reachable_WF s h
  exact ⟨c0, c1, rfl, d0, d1, payload_length_le _ d0, payload_length_le _ d1, fb⟩

/-- C10 witness: the theorem applied to the initial state, which is
reachable by the empty step sequence. -/
theorem buffer_capacity_102400_witness :
    (relay_init "u" "d" false).buffers0.capacity = 102400
  ∧ (relay_init "u" "d" false).buffers1.capacity = 102400
  ∧ BUFFER_CAPACITY = 102400
  ∧ (relay_init "u" "d" false).buffers0.data.length = 102400
  ∧ (relay_init "u" "d" false).buffers1.data.length = 102400
  ∧ (relay_init "u" "d" false).buffers0.payload.length ≤ 102400
  ∧ (relay_init "u" "d" false).buffers1.payload.length ≤ 102400
  ∧ ∀ r ∈ (relay_init "u" "d" false).fallback, r.bytes.length ≤ 102400 :=
  buffer_capacity_102400 (relay_init "u" "d" false)
    ⟨"u", "d", false, Relation.ReflTransGen.refl⟩

/-- C4 witness: the theorem applied at a concrete state with slot 0
full and a transport-error adapter while the fallback write fails. -/
theorem relay_process_local_fault_witness :
    (relay_process uplTransport false 5 testState).status = -1
  ∧ (relay_process uplTransport false 5 testState).state.slot 0 = testState.slot 0
  ∧ ((relay_process uplTransport false 5 testState).state.slot 0).isFull
  ∧ (relay_process uplTransport false 5 testState).state.fallback
      = testState.fallback :=
  relay_process_local_fault uplTransport 5 testState 0 rfl (by decide)

end Electrisense
